import Mathlib

/-!
Verification of the Video-Caption-API backend core
(`Backend/app/services/video_service.py`, `Backend/app/services/database.py`).

The Python source is shallowly embedded:

* Python floats (timestamps, durations, gaps) become `Rat`;
* Python ints become `Int` or `Nat`;
* Python strings become `String`, with `str.strip()` modelled by `pyStrip`;
* a raised exception becomes `Except.error` carrying `str(e)`;
* the side effects of the background pipeline (database writes and file
  removals) become an explicit ordered event trace, and the database row
  mutations of `database.py` become a transition function on `JobRecord`.

`Rat.add` and `Rat.sub` are irreducible in this library, which blocks
kernel evaluation of concrete instances, so the embedding uses `radd` and
`rsub`, reducible functions proved equal to `+` and `-` on `Rat`
(`radd_eq`, `rsub_eq`).
-/

namespace VideoCaption

/-- Reducible addition on `Rat`: the same function as `· + ·`
(see `radd_eq` below), written out so that the kernel can evaluate it. -/
def radd (a b : Rat) : Rat :=
  mkRat (a.num * b.den + b.num * a.den) (a.den * b.den)

/-- Reducible subtraction on `Rat`: the same function as `· - ·`
(see `rsub_eq` below). -/
def rsub (a b : Rat) : Rat :=
  mkRat (a.num * b.den - b.num * a.den) (a.den * b.den)

/-- Python's `str.strip()`: remove leading and trailing whitespace. -/
def pyStrip (s : String) : String :=
  ⟨((s.data.dropWhile Char.isWhitespace).reverse.dropWhile Char.isWhitespace).reverse⟩

/-- `WordInfo` dataclass (`video_service.py` lines 38-43): one transcribed
word with its time span. -/
structure WordInfo where
  start : Rat
  «end» : Rat
  word : String
  deriving DecidableEq

/-- `LineInfo` dataclass (`video_service.py` lines 45-51): one subtitle
line.  The Python accumulator initialises `start`/`end` to `None`, so both
are modelled as `Option Rat`. -/
structure LineInfo where
  start : Option Rat
  «end» : Option Rat
  duration : Rat
  line : String
  deriving DecidableEq

/-- The fresh accumulator
`LineInfo(start=None, end=None, duration=0.0, line="")`. -/
def emptyLine : LineInfo :=
  { start := none, «end» := none, duration := 0, line := "" }

/-- Folding one word into the current line (`video_service.py` lines
288-294): set `start` on first use, append the word text verbatim, move
`end`, and add the word's own duration. -/
def foldWord (acc : LineInfo) (w : WordInfo) : LineInfo :=
  { start := match acc.start with
      | none => some w.start
      | some s => some s
    «end» := some w.«end»
    duration := radd acc.duration (rsub w.«end» w.start)
    line := acc.line ++ w.word }

/-- The loop of `VideoCaption._run_combine_words` (`video_service.py` lines
261-299).  `prevEnd` carries `data[i-1].end` for the gap computation (it is
`none` exactly at `i = 0`, where the source leaves `gap = 0`).  Emission
applies `str.strip()` to the accumulated text. -/
def runCombineWordsAux (max_chars : Int) (max_duration max_gap : Rat) :
    List WordInfo → Option Rat → LineInfo → List LineInfo
  | [], _, current =>
      if current.line ≠ "" then [{ current with line := pyStrip current.line }] else []
  | w :: rest, prevEnd, current =>
      let word_duration := rsub w.«end» w.start
      let gap : Rat := match prevEnd with
        | none => 0
        | some pe => rsub w.start pe
      let max_time_hit := radd current.duration word_duration > max_duration
      let max_chars_hit := (current.line.length : Int) + (w.word.length : Int) ≥ max_chars
      let max_gap_hit := gap > max_gap
      if current.line ≠ "" ∧ (max_time_hit ∨ max_chars_hit ∨ max_gap_hit) then
        { current with line := pyStrip current.line } ::
          runCombineWordsAux max_chars max_duration max_gap rest (some w.«end»)
            (foldWord emptyLine w)
      else
        runCombineWordsAux max_chars max_duration max_gap rest (some w.«end»)
          (foldWord current w)

/-- `VideoCaption._run_combine_words(data, max_chars, max_duration,
max_gap)`: the segmentation engine. -/
def runCombineWords (data : List WordInfo) (max_chars : Int)
    (max_duration max_gap : Rat) : List LineInfo :=
  runCombineWordsAux max_chars max_duration max_gap data none emptyLine

/-- `runCombineWordsAux` with the `str.strip()` at emission left out
(used to state that, ignoring trimming, segmentation repartitions the
input text). -/
def runCombineWordsAuxNT (max_chars : Int) (max_duration max_gap : Rat) :
    List WordInfo → Option Rat → LineInfo → List LineInfo
  | [], _, current =>
      if current.line ≠ "" then [current] else []
  | w :: rest, prevEnd, current =>
      let word_duration := rsub w.«end» w.start
      let gap : Rat := match prevEnd with
        | none => 0
        | some pe => rsub w.start pe
      let max_time_hit := radd current.duration word_duration > max_duration
      let max_chars_hit := (current.line.length : Int) + (w.word.length : Int) ≥ max_chars
      let max_gap_hit := gap > max_gap
      if current.line ≠ "" ∧ (max_time_hit ∨ max_chars_hit ∨ max_gap_hit) then
        current ::
          runCombineWordsAuxNT max_chars max_duration max_gap rest (some w.«end»)
            (foldWord emptyLine w)
      else
        runCombineWordsAuxNT max_chars max_duration max_gap rest (some w.«end»)
          (foldWord current w)

/-- Untrimmed segmentation (same pass as `runCombineWords`, emission
without `str.strip()`). -/
def runCombineWordsNT (data : List WordInfo) (max_chars : Int)
    (max_duration max_gap : Rat) : List LineInfo :=
  runCombineWordsAuxNT max_chars max_duration max_gap data none emptyLine

/-- Apply the emission-time `str.strip()` to a finished line. -/
def trimLine (l : LineInfo) : LineInfo :=
  { l with line := pyStrip l.line }

/-- Concatenation of the texts of a list of lines. -/
def linesText (ls : List LineInfo) : String :=
  (ls.map LineInfo.line).foldr (· ++ ·) ""

/-- Concatenation of the texts of a list of words. -/
def wordsText (ws : List WordInfo) : String :=
  (ws.map WordInfo.word).foldr (· ++ ·) ""

/-- Sum of the individual word durations `w.end - w.start`. -/
def sumDur (ws : List WordInfo) : Rat :=
  (ws.map (fun w => rsub w.«end» w.start)).foldr radd 0

/-- `runCombineWordsAux` instrumented to also return, with each emitted
line, the list of words that were folded into it. -/
def runCombineWordsAuxAnn (max_chars : Int) (max_duration max_gap : Rat) :
    List WordInfo → Option Rat → LineInfo → List WordInfo →
      List (LineInfo × List WordInfo)
  | [], _, current, accW =>
      if current.line ≠ "" then [({ current with line := pyStrip current.line }, accW)] else []
  | w :: rest, prevEnd, current, accW =>
      let word_duration := rsub w.«end» w.start
      let gap : Rat := match prevEnd with
        | none => 0
        | some pe => rsub w.start pe
      let max_time_hit := radd current.duration word_duration > max_duration
      let max_chars_hit := (current.line.length : Int) + (w.word.length : Int) ≥ max_chars
      let max_gap_hit := gap > max_gap
      if current.line ≠ "" ∧ (max_time_hit ∨ max_chars_hit ∨ max_gap_hit) then
        ({ current with line := pyStrip current.line }, accW) ::
          runCombineWordsAuxAnn max_chars max_duration max_gap rest (some w.«end»)
            (foldWord emptyLine w) [w]
      else
        runCombineWordsAuxAnn max_chars max_duration max_gap rest (some w.«end»)
          (foldWord current w) (accW ++ [w])

/-- Instrumented segmentation: each output line paired with its words. -/
def runCombineWordsAnn (data : List WordInfo) (max_chars : Int)
    (max_duration max_gap : Rat) : List (LineInfo × List WordInfo) :=
  runCombineWordsAuxAnn max_chars max_duration max_gap data none emptyLine []

/-- Spec §4.2, step 2, last bullet: if the (possibly just-reset)
accumulator has no start yet, set `start = w.start`; append `w.text`
verbatim to `text`; set `end = w.end`; add `w.end - w.start` to
`duration`. -/
def specFold (acc : LineInfo) (w : WordInfo) : LineInfo :=
  let acc := if acc.start = none then { acc with start := some w.start } else acc
  { acc with
     line := acc.line ++ w.word
     «end» := some w.«end»
     duration := radd acc.duration (rsub w.«end» w.start) }

/-- One step of the segmentation pass as the specification words it
(spec §4.2, algorithm step 2), written independently of the source: the
gap is looked up by index in the original word list (`words[i-1].end`),
the three triggers are computed against the accumulator before the word is
added, the accumulator is emitted (trimmed) when it is non-empty and a
trigger fires, and the word is then folded in. -/
def specStep (words : List WordInfo) (max_chars : Int)
    (max_duration max_gap : Rat) (st : List LineInfo × LineInfo)
    (iw : Nat × WordInfo) : List LineInfo × LineInfo :=
  let emitted := st.1
  let acc := st.2
  let i := iw.1
  let w := iw.2
  let gap : Rat :=
    if i > 0 then
      match words.get? (i - 1) with
      | some prev => rsub w.start prev.«end»
      | none => 0
    else 0
  let time_hit := radd acc.duration (rsub w.«end» w.start) > max_duration
  let chars_hit := (acc.line.length : Int) + (w.word.length : Int) ≥ max_chars
  let gap_hit := gap > max_gap
  let st1 :=
    if acc.line ≠ "" ∧ (time_hit ∨ chars_hit ∨ gap_hit) then
      (emitted ++ [{ acc with line := pyStrip acc.line }], emptyLine)
    else (emitted, acc)
  (st1.1, specFold st1.2 w)

/-- Spec §4.2, step 3: after the loop, if the accumulator is non-empty,
trim and emit it as the final line. -/
def specFinish (st : List LineInfo × LineInfo) : List LineInfo :=
  if st.2.line ≠ "" then st.1 ++ [{ st.2 with line := pyStrip st.2.line }] else st.1

/-- The segmentation contract as the specification words it (spec §4.2):
a left fold over the indexed word sequence, finished by emitting the final
non-empty accumulator. -/
def segment (words : List WordInfo) (max_chars : Int)
    (max_duration max_gap : Rat) : List LineInfo :=
  specFinish (words.enum.foldl (specStep words max_chars max_duration max_gap)
    ([], emptyLine))

/-- The previous word's end time as the source loop sees it when the
running index is `n`: absent at `n = 0`, otherwise `words[n-1].end`. -/
def prevEndAt (words : List WordInfo) (n : Nat) : Option Rat :=
  if n = 0 then none else (words.get? (n - 1)).map WordInfo.«end»

/-- `Position` enum (`video_service.py` lines 31-35). -/
inductive Position where
  | bottom
  | center
  | top
  deriving DecidableEq

/-- `Position(value)`: constructing the enum from its integer value.
`Position(n)` raises `ValueError(f"{n} is not a valid Position")` when `n`
is not one of 1, 2, 3. -/
def Position.fromId : Int → Except String Position
  | 1 => .ok .bottom
  | 2 => .ok .center
  | 3 => .ok .top
  | n => .error (toString n ++ " is not a valid Position")

/-- `SubtitleOptions` pydantic model (`video_models.py`): only the fields
the verified core reads are kept. -/
structure SubtitleOptions where
  position_id : Int
  max_chars : Int
  max_duration : Rat
  max_gap : Rat
  deriving DecidableEq

/-- One observable side effect of the background pipeline: a database
write (`update_job_status_db`, `update_job_completed_db`,
`update_job_failed_db`) or an `os.remove`. -/
inductive Event where
  | updateStatus (statusId : Nat) (progress : Nat)
  | completed
  | failed (msg : String)
  | removeFile (path : String)
  deriving DecidableEq

/-- Whether an event is a write to the job record (as opposed to a file
removal). -/
def Event.isJobWrite : Event → Bool
  | .removeFile _ => false
  | _ => true

/-- Outcomes of the external, effectful operations of one pipeline run:
whether audio extraction produced a file (and its path), whether the
transcriber returned words or raised, whether `VideoFileClip` loaded,
whether building the `TextClip` layers raised, whether
`write_videofile` raised, and the `os.path.exists` / `os.remove`
behaviour for the two cleanup steps — the removal of the extracted audio
file at the end of `generate_subtitles` and the removal of the input
file in the `finally` block of `background_video_processing`.  Both
removals can raise `OSError`, so both are modelled as fallible. -/
structure Env where
  convertResult : Option String
  transcribe : Except String (List WordInfo)
  loadVideo : Except String Unit
  captionOk : Except String Unit
  render : Except String Unit
  audioExists : Bool
  removeAudio : Except String Unit
  inputExistsAtCleanup : Bool
  removeInputOk : Bool

/-- `Except.isOk` as a plain boolean. -/
def isOkB : Except String Unit → Bool
  | .ok _ => true
  | .error _ => false

/-- Forget the payload of an `Except`. -/
def exceptToUnit {α : Type} : Except String α → Except String Unit
  | .ok _ => .ok ()
  | .error e => .error e

/-- `VideoCaption.generate_subtitles` (`video_service.py` lines 71-110) as
a trace transformer: returns the ordered list of side effects it performs
and either `ok` or the message of the exception it raises.  Checkpoints:
`(Processing, 25)` after audio extraction, `(Processing, 50)` after
transcription, `(Processing, 65)` after segmentation; after rendering the
extracted audio file is removed (guarded by `os.path.exists`).  That
`os.remove` has no `try`/`except` of its own and runs inside the caller's
`try`, so when it raises, the exception propagates like a stage
failure. -/
def generateSubtitles (env : Env) (inputPath : String)
    (opts : SubtitleOptions) : List Event × Except String Unit :=
  match env.convertResult with
  | none => ([], .error ("Failed to convert video to audio: " ++ inputPath))
  | some audio =>
    let ev := [Event.updateStatus 2 25]
    match env.transcribe with
    | .error e => (ev, .error e)
    | .ok raw_output =>
      let ev := ev ++ [Event.updateStatus 2 50]
      let _modified_output :=
        runCombineWords raw_output opts.max_chars opts.max_duration opts.max_gap
      let ev := ev ++ [Event.updateStatus 2 65]
      match env.loadVideo with
      | .error e => (ev, .error e)
      | .ok _ =>
        match (Position.fromId opts.position_id).bind fun _ => env.captionOk with
        | .error e => (ev, .error e)
        | .ok _ =>
          match env.render with
          | .error e => (ev, .error e)
          | .ok _ =>
            if env.audioExists then
              match env.removeAudio with
              | .ok _ => (ev ++ [Event.removeFile audio], .ok ())
              | .error e => (ev, .error e)
            else (ev, .ok ())

/-- `process_video_with_subtitles` (`video_service.py` lines 512-533):
runs the pipeline and returns `True` when it did not raise. -/
def processVideoWithSubtitles (env : Env) (inputPath : String)
    (opts : SubtitleOptions) : List Event × Except String Bool :=
  let r := generateSubtitles env inputPath opts
  (r.1, r.2.map fun _ => true)

/-- `background_video_processing` (`video_service.py` lines 536-566):
writes `(NotStarted, 10)`, runs the pipeline inside `try`, marks the job
completed on `True` / failed on `False`, maps any exception `e` to
`update_job_failed_db(job_id, f"Error: {str(e)}")`, and in `finally`
removes the input file (this `os.remove` is not guarded by a
`try`/`except`, so its failure escapes the routine).  Returns the event
trace and whether the routine itself raises. -/
def backgroundVideoProcessing (env : Env) (inputPath : String)
    (opts : SubtitleOptions) : List Event × Except String Unit :=
  let body :=
    let ev := [Event.updateStatus 1 10]
    match processVideoWithSubtitles env inputPath opts with
    | (evs, .ok success) =>
        if success then ev ++ evs ++ [Event.completed]
        else ev ++ evs ++ [Event.failed "Error: Unable to process video"]
    | (evs, .error e) => ev ++ evs ++ [Event.failed ("Error: " ++ e)]
  if env.inputExistsAtCleanup then
    if env.removeInputOk then (body ++ [Event.removeFile inputPath], .ok ())
    else (body, .error "OSError")
  else (body, .ok ())

/-- The job-record writes performed by one run of
`background_video_processing`. -/
def jobWrites (env : Env) (inputPath : String) (opts : SubtitleOptions) :
    List Event :=
  (backgroundVideoProcessing env inputPath opts).1.filter Event.isJobWrite

/-- All external stages of one run succeed (and the position id is one the
`Position` enum accepts). -/
def stagesAllOk (env : Env) (opts : SubtitleOptions) : Bool :=
  env.convertResult.isSome && isOkB (exceptToUnit env.transcribe) &&
    isOkB env.loadVideo &&
    isOkB ((Position.fromId opts.position_id).bind fun _ => env.captionOk) &&
    isOkB env.render

/-- A row of the `Jobs` table, restricted to the columns the claims are
about.  `update_job_completed_db` stores `datetime.now()` in
`Completed_At`; the model only records that the column was written. -/
structure JobRecord where
  statusId : Nat
  progress : Nat
  downloadUrl : String
  failedMessage : String
  completedAtSet : Bool
  deriving DecidableEq

/-- The row created by `create_job` / `create_job_db`: `status_id=1`,
`progress=0`, `Download_URL` and `Failed_Message` defaulted to `''`. -/
def initialJob : JobRecord :=
  { statusId := 1, progress := 0, downloadUrl := "", failedMessage := ""
    completedAtSet := false }

/-- The row mutation performed by one database write (`database.py`:
`update_job_status_db` lines 236-266, `update_job_failed_db` lines
268-298 writes status 4 and progress 0, `update_job_completed_db` lines
300-331 writes status 3, progress 100, `Completed_At` and
`Download_URL = f"/jobs/{job_id}/download"`). -/
def applyEvent (jobId : String) (j : JobRecord) : Event → JobRecord
  | .updateStatus s p => { j with statusId := s, progress := p }
  | .completed =>
      { j with statusId := 3, progress := 100
               downloadUrl := "/jobs/" ++ jobId ++ "/download"
               completedAtSet := true }
  | .failed msg => { j with statusId := 4, progress := 0, failedMessage := msg }
  | .removeFile _ => j

/-- Replay a trace of writes against a job row. -/
def applyEvents (jobId : String) (j : JobRecord) (evs : List Event) : JobRecord :=
  evs.foldl (applyEvent jobId) j

/-- The progress value a job-record write stores (`update_job_completed_db`
stores 100, `update_job_failed_db` stores 0). -/
def Event.progressOf : Event → Nat
  | .updateStatus _ p => p
  | .completed => 100
  | .failed _ => 0
  | .removeFile _ => 0

/-- One entry of `TEMP_DIR.glob("*")` as seen by `cleanup_temp_files`:
its path, whether `is_file()` holds, and whether `os.remove` succeeds on
it. -/
structure TempFile where
  path : String
  isFile : Bool
  removeOk : Bool
  deriving DecidableEq

/-- `os.remove` on one temp file: raises `OSError` when removal fails. -/
def osRemove (f : TempFile) : Except String Unit :=
  if f.removeOk then .ok () else .error "OSError"

/-- `cleanup_temp_files` (`video_service.py` lines 631-640): for each
file, try to remove it and swallow any exception (`except: pass`).
The result records the files actually removed; an `error` result would
mean an exception escaped the routine. -/
def cleanupTempFiles : List TempFile → Except String (List Event)
  | [] => .ok []
  | f :: rest =>
    if f.isFile then
      match osRemove f with
      | .ok _ => (cleanupTempFiles rest).map (Event.removeFile f.path :: ·)
      | .error _ => cleanupTempFiles rest
    else cleanupTempFiles rest

/-- `Path(filename).suffix`: the file extension including the dot, empty
for extensionless names and pure dotfiles. -/
def pySuffix (s : String) : String :=
  let parts := s.splitOn "."
  if parts.length ≤ 1 then ""
  else if parts.length = 2 ∧ parts.headI = "" then ""
  else "." ++ parts.getLastI

/-- `create_job` (`video_service.py` lines 569-603): builds the input and
output paths from a fresh job id and inserts the row; it performs no
validation of the subtitle options.  `none` would model a rejection at the
job-creation boundary; the source never rejects. -/
def create_job (video_filename : String) (job_id : String)
    (_opts : SubtitleOptions) : Option (String × String × String) :=
  some (job_id, job_id ++ "_input" ++ pySuffix video_filename,
        job_id ++ "_output.mp4")

end VideoCaption

namespace VideoCaption

theorem radd_eq (a b : Rat) : radd a b = a + b := (Rat.add_def' a b).symm

theorem rsub_eq (a b : Rat) : rsub a b = a - b := (Rat.sub_def' a b).symm

/-- C5: on the words `[{0.0,0.4,"Hello "},{0.5,0.9,"world "},{3.0,3.4,"today"}]`
with `max_chars=30`, `max_duration=2.5`, `max_gap=1.5`, the segmentation
engine returns exactly the two lines `{start 0.0, end 0.9, "Hello world"}`
and `{start 3.0, end 3.4, "today"}` (the 2.1 s gap before "today" exceeds
`max_gap`). -/
theorem claim_C5_scenario :
    runCombineWords
      [⟨0, mkRat 4 10, "Hello "⟩, ⟨mkRat 5 10, mkRat 9 10, "world "⟩,
       ⟨3, mkRat 34 10, "today"⟩] 30 (mkRat 25 10) (mkRat 15 10)
    = [{ start := some 0, «end» := some (mkRat 9 10), duration := mkRat 8 10,
         line := "Hello world" },
       { start := some 3, «end» := some (mkRat 34 10), duration := mkRat 4 10,
         line := "today" }] := by
  decide


theorem specFold_eq (acc : LineInfo) (w : WordInfo) :
    specFold acc w = foldWord acc w := by
  cases h : acc.start <;> simp [specFold, foldWord, h]

theorem spec_foldl_eq (mc : Int) (md mg : Rat) (words : List WordInfo) :
    ∀ (suffix : List WordInfo) (n : Nat), words.drop n = suffix →
    ∀ (emitted : List LineInfo) (acc : LineInfo),
      specFinish ((List.enumFrom n suffix).foldl
          (specStep words mc md mg) (emitted, acc))
      = emitted ++ runCombineWordsAux mc md mg suffix (prevEndAt words n) acc := by
  intro suffix
  induction suffix with
  | nil =>
      intro n hdrop emitted acc
      simp only [List.enumFrom, List.foldl_nil, runCombineWordsAux, specFinish]
      by_cases h : acc.line = "" <;> simp [h]
  | cons w rest ih =>
      intro n hdrop emitted acc
      have hn : n < words.length := by
        by_contra hle
        push_neg at hle
        rw [List.drop_eq_nil_of_le hle] at hdrop
        exact List.cons_ne_nil _ _ hdrop.symm
      have hget : words.get? n = some w := by
        have h0 := List.getElem?_drop words n 0
        rw [hdrop] at h0
        simpa [List.get?_eq_getElem?] using h0.symm
      have hdrop' : words.drop (n + 1) = rest := by
        have h1 : words.drop (n + 1) = (words.drop n).drop 1 := by
          rw [List.drop_drop, Nat.add_comm]
        rw [h1, hdrop]
        rfl
      have hprev : prevEndAt words (n + 1) = some w.«end» := by
        unfold prevEndAt
        rw [if_neg (Nat.succ_ne_zero n), Nat.succ_sub_one, hget]
        rfl
      have hgap :
          (if n > 0 then
            match words.get? (n - 1) with
            | some prev => rsub w.start prev.«end»
            | none => 0
           else (0 : Rat))
          = (match prevEndAt words n with
             | none => (0 : Rat)
             | some pe => rsub w.start pe) := by
        rcases n with _ | k
        · simp [prevEndAt]
        · have hk : k < words.length := Nat.lt_of_succ_lt hn
          have hg : words.get? k = some (words.get ⟨k, hk⟩) := List.get?_eq_get hk
          have hg2 : words[k]? = some (words.get ⟨k, hk⟩) := by
            simpa [List.get?_eq_getElem?] using hg
          simp [prevEndAt, hg, hg2]
      simp only [List.enumFrom, List.foldl_cons]
      simp only [runCombineWordsAux]
      simp only [specStep]
      rw [hgap]
      split_ifs with hC
      · simp only
        rw [specFold_eq, ih (n + 1) hdrop' _ _, hprev]
        simp [List.append_assoc]
      · simp only
        rw [specFold_eq, ih (n + 1) hdrop' _ _, hprev]

/-- C1: the segmentation function implements exactly the greedy pass of the
specification: for every input word sequence and parameters, the
specification-worded pass (`segment`: index-based gap with `gap = 0` at
`i = 0`, `time_hit` strictly greater, `chars_hit` with `≥`, `gap_hit`
strictly greater, all computed against the accumulator before the word is
added; emission iff the accumulator text is non-empty and a trigger fires,
with whitespace trimming; then folding the word into the possibly fresh
accumulator) produces exactly the output of the source function
`_run_combine_words`. -/
theorem claim_C1_segment_matches_source (words : List WordInfo) (mc : Int)
    (md mg : Rat) : segment words mc md mg = runCombineWords words mc md mg := by
  have h := spec_foldl_eq mc md mg words words 0 rfl [] emptyLine
  simpa [segment, runCombineWords, List.enum, prevEndAt] using h

theorem aux_eq_map_trimLine (mc : Int) (md mg : Rat) :
    ∀ (l : List WordInfo) (pe : Option Rat) (acc : LineInfo),
      runCombineWordsAux mc md mg l pe acc
        = (runCombineWordsAuxNT mc md mg l pe acc).map trimLine := by
  intro l
  induction l with
  | nil =>
      intro pe acc
      simp only [runCombineWordsAux, runCombineWordsAuxNT]
      by_cases h : acc.line = "" <;> simp [h, trimLine]
  | cons w rest ih =>
      intro pe acc
      simp only [runCombineWordsAux, runCombineWordsAuxNT]
      split_ifs with hC <;> simp [ih, trimLine]

theorem linesText_cons (x : LineInfo) (xs : List LineInfo) :
    linesText (x :: xs) = x.line ++ linesText xs := rfl

theorem wordsText_cons (w : WordInfo) (ws : List WordInfo) :
    wordsText (w :: ws) = w.word ++ wordsText ws := rfl

theorem auxNT_text (mc : Int) (md mg : Rat) :
    ∀ (l : List WordInfo) (pe : Option Rat) (acc : LineInfo),
      linesText (runCombineWordsAuxNT mc md mg l pe acc)
        = acc.line ++ wordsText l := by
  intro l
  induction l with
  | nil =>
      intro pe acc
      simp only [runCombineWordsAuxNT]
      by_cases h : acc.line = "" <;> simp [h, linesText, wordsText]
  | cons w rest ih =>
      intro pe acc
      simp only [runCombineWordsAuxNT]
      split_ifs with hC
      · rw [linesText_cons, ih, wordsText_cons]
        simp [foldWord, emptyLine, String.append_assoc]
      · rw [ih, wordsText_cons]
        simp [foldWord, String.append_assoc]

theorem string_eq_empty_of_data (s : String) (h : s.data = []) : s = "" := by
  cases s
  simp_all

theorem wordsText_ne_empty :
    ∀ (data : List WordInfo), (∃ w ∈ data, w.word ≠ "") → wordsText data ≠ "" := by
  intro data
  induction data with
  | nil => rintro ⟨w, hw, _⟩; cases hw
  | cons w rest ih =>
      rintro ⟨v, hv, hvne⟩ hcontra
      have hdata : w.word.data ++ (wordsText rest).data = [] := by
        have := congrArg String.data hcontra
        simpa [wordsText_cons] using this
      rcases List.append_eq_nil.mp hdata with ⟨h1, h2⟩
      rcases List.mem_cons.mp hv with hv | hv
      · exact hvne (hv ▸ string_eq_empty_of_data _ h1)
      · exact ih ⟨v, hv, hvne⟩ (string_eq_empty_of_data _ h2)

/-- C2 counterexample: a non-empty word sequence for which the segmentation
engine returns no lines at all — a single word whose text is the empty
string never makes the accumulator non-empty, so nothing is ever
emitted. -/
theorem claim_C2_counterexample :
    ([⟨0, 1, ""⟩] : List WordInfo) ≠ [] ∧
      runCombineWords [⟨0, 1, ""⟩] 30 (mkRat 25 10) (mkRat 15 10) = [] := by
  decide

/-- C2 (amended): segmentation is the whitespace-trimming image of an
untrimmed pass; ignoring that trimming, the concatenation of the output
lines' texts always reproduces the concatenation of the input words'
texts in order (no word split, omitted or duplicated); and whenever some
input word has non-empty text — in particular for every non-empty word
sequence produced by a transcriber, though not for the degenerate
sequence of only empty-text words — at least one line is returned. -/
theorem claim_C2_amended :
    (∀ (data : List WordInfo) (mc : Int) (md mg : Rat),
      runCombineWords data mc md mg
        = (runCombineWordsNT data mc md mg).map trimLine) ∧
    (∀ (data : List WordInfo) (mc : Int) (md mg : Rat),
      linesText (runCombineWordsNT data mc md mg) = wordsText data) ∧
    (∀ (data : List WordInfo) (mc : Int) (md mg : Rat),
      (∃ w ∈ data, w.word ≠ "") → runCombineWords data mc md mg ≠ []) := by
  refine ⟨?_, ?_, ?_⟩
  · intro data mc md mg
    exact aux_eq_map_trimLine mc md mg data none emptyLine
  · intro data mc md mg
    have h := auxNT_text mc md mg data none emptyLine
    simpa [runCombineWordsNT, emptyLine] using h
  · intro data mc md mg hw hnil
    have hNT : runCombineWordsNT data mc md mg = [] := by
      have h := aux_eq_map_trimLine mc md mg data none emptyLine
      rw [runCombineWords] at hnil
      rw [hnil] at h
      exact (List.map_eq_nil.mp h.symm)
    have h2 := auxNT_text mc md mg data none emptyLine
    rw [runCombineWordsNT] at hNT
    rw [hNT] at h2
    have : wordsText data = "" := by simpa [linesText, emptyLine] using h2.symm
    exact wordsText_ne_empty data hw this

theorem claim_C2_amended_witness :
    (∃ w ∈ ([⟨0, mkRat 4 10, "Hello "⟩, ⟨mkRat 5 10, mkRat 9 10, "world "⟩,
             ⟨3, mkRat 34 10, "today"⟩] : List WordInfo), w.word ≠ "") ∧
    runCombineWords
      [⟨0, mkRat 4 10, "Hello "⟩, ⟨mkRat 5 10, mkRat 9 10, "world "⟩,
       ⟨3, mkRat 34 10, "today"⟩] 30 (mkRat 25 10) (mkRat 15 10) ≠ [] :=
  ⟨by decide,
   claim_C2_amended.2.2
     [⟨0, mkRat 4 10, "Hello "⟩, ⟨mkRat 5 10, mkRat 9 10, "world "⟩,
      ⟨3, mkRat 34 10, "today"⟩] 30 (mkRat 25 10) (mkRat 15 10) (by decide)⟩


theorem sumDur_eq (ws : List WordInfo) :
    sumDur ws = (ws.map (fun w => w.«end» - w.start)).sum := by
  induction ws with
  | nil => rfl
  | cons w t ih =>
      calc sumDur (w :: t) = radd (rsub w.«end» w.start) (sumDur t) := rfl
        _ = (w.«end» - w.start) + (t.map (fun w => w.«end» - w.start)).sum := by
              rw [radd_eq, rsub_eq, ih]
        _ = ((w :: t).map (fun w => w.«end» - w.start)).sum := by
              simp [List.sum_cons]

theorem auxAnn_map_fst (mc : Int) (md mg : Rat) :
    ∀ (l : List WordInfo) (pe : Option Rat) (acc : LineInfo) (accW : List WordInfo),
      (runCombineWordsAuxAnn mc md mg l pe acc accW).map Prod.fst
        = runCombineWordsAux mc md mg l pe acc := by
  intro l
  induction l with
  | nil =>
      intro pe acc accW
      simp only [runCombineWordsAuxAnn, runCombineWordsAux]
      by_cases h : acc.line = "" <;> simp [h]
  | cons w rest ih =>
      intro pe acc accW
      simp only [runCombineWordsAuxAnn, runCombineWordsAux]
      split_ifs with hC <;> simp [ih]

theorem auxAnn_duration (mc : Int) (md mg : Rat) :
    ∀ (l : List WordInfo) (pe : Option Rat) (acc : LineInfo) (accW : List WordInfo),
      acc.duration = sumDur accW →
      ∀ p ∈ runCombineWordsAuxAnn mc md mg l pe acc accW,
        p.1.duration = sumDur p.2 := by
  intro l
  induction l with
  | nil =>
      intro pe acc accW hinv p hp
      simp only [runCombineWordsAuxAnn] at hp
      by_cases h : acc.line = ""
      · simp [h] at hp
      · simp [h] at hp
        rcases hp with rfl
        simpa using hinv
  | cons w rest ih =>
      intro pe acc accW hinv p hp
      simp only [runCombineWordsAuxAnn] at hp
      split_ifs at hp with hC
      · rcases List.mem_cons.mp hp with hp | hp
        · rw [hp]
          exact hinv
        · refine ih _ _ _ ?_ p hp
          simp [foldWord, emptyLine, sumDur_eq, radd_eq, rsub_eq]
      · refine ih _ _ _ ?_ p hp
        simp only [foldWord, sumDur_eq, List.map_append, List.sum_append,
          List.map_cons, List.sum_cons, List.map_nil, List.sum_nil,
          radd_eq, rsub_eq]
        rw [hinv, sumDur_eq]
        ring

/-- C6: the `duration` of every output line is the sum of `w.end - w.start`
over exactly the words folded into that line (witnessed by the
instrumented pass `runCombineWordsAnn`, whose first components are exactly
the output of `_run_combine_words`), and it is not recomputed as
`end - start`: on the spec §8 scenario the first line has
`duration = 0.8` while `end - start = 0.9`. -/
theorem claim_C6_duration_is_sum :
    (∀ (data : List WordInfo) (mc : Int) (md mg : Rat),
      (runCombineWordsAnn data mc md mg).map Prod.fst
        = runCombineWords data mc md mg) ∧
    (∀ (data : List WordInfo) (mc : Int) (md mg : Rat),
      ∀ p ∈ runCombineWordsAnn data mc md mg, p.1.duration = sumDur p.2) ∧
    (∃ l ∈ runCombineWords
        [⟨0, mkRat 4 10, "Hello "⟩, ⟨mkRat 5 10, mkRat 9 10, "world "⟩,
         ⟨3, mkRat 34 10, "today"⟩] 30 (mkRat 25 10) (mkRat 15 10),
      ∃ s e, l.start = some s ∧ l.«end» = some e ∧ l.duration < e - s) := by
  refine ⟨?_, ?_, ?_⟩
  · intro data mc md mg
    exact auxAnn_map_fst mc md mg data none emptyLine []
  · intro data mc md mg p hp
    exact auxAnn_duration mc md mg data none emptyLine [] (by rfl) p hp
  · refine ⟨{ start := some 0, «end» := some (mkRat 9 10),
              duration := mkRat 8 10, line := "Hello world" },
      by decide, 0, mkRat 9 10, rfl, rfl, ?_⟩
    rw [← rsub_eq]
    decide

theorem claim_C6_duration_is_sum_witness :
    (({ start := some 0, «end» := some (mkRat 9 10), duration := mkRat 8 10,
        line := "Hello world" },
      [⟨0, mkRat 4 10, "Hello "⟩, ⟨mkRat 5 10, mkRat 9 10, "world "⟩])
      : LineInfo × List WordInfo) ∈
      runCombineWordsAnn
        [⟨0, mkRat 4 10, "Hello "⟩, ⟨mkRat 5 10, mkRat 9 10, "world "⟩,
         ⟨3, mkRat 34 10, "today"⟩] 30 (mkRat 25 10) (mkRat 15 10) ∧
    (mkRat 8 10 : Rat) =
      sumDur [⟨0, mkRat 4 10, "Hello "⟩, ⟨mkRat 5 10, mkRat 9 10, "world "⟩] :=
  ⟨by decide,
   claim_C6_duration_is_sum.2.1
     [⟨0, mkRat 4 10, "Hello "⟩, ⟨mkRat 5 10, mkRat 9 10, "world "⟩,
      ⟨3, mkRat 34 10, "today"⟩] 30 (mkRat 25 10) (mkRat 15 10)
     ({ start := some 0, «end» := some (mkRat 9 10), duration := mkRat 8 10,
        line := "Hello world" },
      [⟨0, mkRat 4 10, "Hello "⟩, ⟨mkRat 5 10, mkRat 9 10, "world "⟩])
     (by decide)⟩

end VideoCaption

namespace VideoCaption

theorem error_msg_ne_empty (e : String) : ("Error: " ++ e : String) ≠ "" := by
  intro h
  have h2 := congrArg String.data h
  simp at h2

theorem gen_error_of_not_ok (env : Env) (input : String) (opts : SubtitleOptions)
    (h : stagesAllOk env opts = false) :
    ∃ e, (generateSubtitles env input opts).2 = .error e := by
  rcases env with ⟨cr, tr, lv, co, rd, ae, ra, ie, ro⟩
  cases cr with
  | none => exact ⟨_, rfl⟩
  | some a =>
    cases tr with
    | error e => exact ⟨e, rfl⟩
    | ok ws =>
      cases lv with
      | error e => exact ⟨e, rfl⟩
      | ok u =>
        cases hP : (Position.fromId opts.position_id).bind fun _ => co with
        | error e => exact ⟨e, by simp [generateSubtitles, hP]⟩
        | ok u2 =>
          cases rd with
          | error e => exact ⟨e, by simp [generateSubtitles, hP]⟩
          | ok u3 =>
            simp [stagesAllOk, isOkB, exceptToUnit, hP] at h

theorem gen_trace_on_error (env : Env) (input : String) (opts : SubtitleOptions)
    (e : String) (he : (generateSubtitles env input opts).2 = .error e) :
    ∃ k, (generateSubtitles env input opts).1
      = [Event.updateStatus 2 25, Event.updateStatus 2 50,
         Event.updateStatus 2 65].take k := by
  rcases env with ⟨cr, tr, lv, co, rd, ae, ra, ie, ro⟩
  cases cr with
  | none => exact ⟨0, rfl⟩
  | some a =>
    cases tr with
    | error e2 => exact ⟨1, rfl⟩
    | ok ws =>
      cases lv with
      | error e2 => exact ⟨3, rfl⟩
      | ok u =>
        cases hP : (Position.fromId opts.position_id).bind fun _ => co with
        | error e2 => exact ⟨3, by simp [generateSubtitles, hP]⟩
        | ok u2 =>
          cases rd with
          | error e2 => exact ⟨3, by simp [generateSubtitles, hP]⟩
          | ok u3 =>
            cases ae with
            | false =>
                exfalso
                simp [generateSubtitles, hP] at he
            | true =>
                cases ra with
                | error e2 => exact ⟨3, by simp [generateSubtitles, hP]⟩
                | ok u4 =>
                    exfalso
                    simp [generateSubtitles, hP] at he

theorem gen_ok_shape (env : Env) (input : String) (opts : SubtitleOptions)
    (h : stagesAllOk env opts = true)
    (haud : env.audioExists = true → env.removeAudio = Except.ok ()) :
    ∃ a, env.convertResult = some a ∧
      generateSubtitles env input opts
        = ([Event.updateStatus 2 25, Event.updateStatus 2 50, Event.updateStatus 2 65]
            ++ (if env.audioExists then [Event.removeFile a] else []), .ok ()) := by
  rcases env with ⟨cr, tr, lv, co, rd, ae, ra, ie, ro⟩
  simp only [stagesAllOk, Bool.and_eq_true] at h
  obtain ⟨⟨⟨⟨hc, ht⟩, hl⟩, hco⟩, hr⟩ := h
  cases cr with
  | none => simp at hc
  | some a =>
    refine ⟨a, rfl, ?_⟩
    cases tr with
    | error e => simp [isOkB, exceptToUnit] at ht
    | ok ws =>
      cases lv with
      | error e => simp [isOkB] at hl
      | ok u =>
        cases hP : (Position.fromId opts.position_id).bind fun _ => co with
        | error e => rw [hP] at hco; simp [isOkB] at hco
        | ok u2 =>
          cases rd with
          | error e => simp [isOkB] at hr
          | ok u3 =>
            cases ae with
            | false => simp [generateSubtitles, hP]
            | true =>
                have hra : ra = Except.ok () := haud rfl
                subst hra
                simp [generateSubtitles, hP]

end VideoCaption

namespace VideoCaption

theorem background_shape_ok (env : Env) (input : String) (opts : SubtitleOptions)
    (h : stagesAllOk env opts = true)
    (haud : env.audioExists = true → env.removeAudio = Except.ok ()) :
    ∃ a, env.convertResult = some a ∧
      (backgroundVideoProcessing env input opts).1
        = [Event.updateStatus 1 10, Event.updateStatus 2 25, Event.updateStatus 2 50,
           Event.updateStatus 2 65]
          ++ (if env.audioExists then [Event.removeFile a] else [])
          ++ [Event.completed]
          ++ (if env.inputExistsAtCleanup ∧ env.removeInputOk
              then [Event.removeFile input] else []) := by
  obtain ⟨a, ha, hg⟩ := gen_ok_shape env input opts h haud
  refine ⟨a, ha, ?_⟩
  unfold backgroundVideoProcessing processVideoWithSubtitles
  rw [hg]
  rcases env with ⟨cr, tr, lv, co, rd, ae, ra, ie, ro⟩
  cases ae <;> cases ie <;> cases ro <;> simp [Except.map]

theorem background_shape_error (env : Env) (input : String) (opts : SubtitleOptions)
    (e : String) (he : (generateSubtitles env input opts).2 = .error e) :
    (backgroundVideoProcessing env input opts).1
      = [Event.updateStatus 1 10] ++ (generateSubtitles env input opts).1
        ++ [Event.failed ("Error: " ++ e)]
        ++ (if env.inputExistsAtCleanup ∧ env.removeInputOk
            then [Event.removeFile input] else []) := by
  unfold backgroundVideoProcessing processVideoWithSubtitles
  rcases hg : generateSubtitles env input opts with ⟨evs, r⟩
  rw [hg] at he
  simp only at he
  subst he
  rcases env with ⟨cr, tr, lv, co, rd, ae, ra, ie, ro⟩
  cases ie <;> cases ro <;> simp [Except.map]

theorem background_result (env : Env) (input : String) (opts : SubtitleOptions) :
    (backgroundVideoProcessing env input opts).2
      = if env.inputExistsAtCleanup ∧ ¬ env.removeInputOk
        then .error "OSError" else .ok () := by
  unfold backgroundVideoProcessing processVideoWithSubtitles
  rcases hg : generateSubtitles env input opts with ⟨evs, r⟩
  rcases env with ⟨cr, tr, lv, co, rd, ae, ra, ie, ro⟩
  cases ie <;> cases ro <;> cases r <;> simp [Except.map]

/-- C3 (amended): on a run in which every stage succeeds and the removal
of the extracted audio file does not raise (that `os.remove` sits inside
the `try` of `background_video_processing`, before the terminal write, so
its failure sends even an all-stages-successful run to `Failed` — see the
counterexample), the job record receives exactly the checkpoint writes
`(NotStarted,10)`, `(Processing,25)`, `(Processing,50)`, `(Processing,65)`
and the terminal completion write, in this order and no others; replaying
them yields status `Completed`, progress 100, a non-empty download URL
and a set completion time, and the progress values are strictly
increasing. -/
theorem claim_C3_success_checkpoints (env : Env) (input : String)
    (opts : SubtitleOptions) (jobId : String) (h : stagesAllOk env opts = true)
    (haud : env.audioExists = true → env.removeAudio = Except.ok ()) :
    jobWrites env input opts
      = [Event.updateStatus 1 10, Event.updateStatus 2 25, Event.updateStatus 2 50,
         Event.updateStatus 2 65, Event.completed] ∧
    (applyEvents jobId initialJob (backgroundVideoProcessing env input opts).1)
      = { statusId := 3, progress := 100
          downloadUrl := "/jobs/" ++ jobId ++ "/download"
          failedMessage := "", completedAtSet := true } ∧
    ("/jobs/" ++ jobId ++ "/download" : String) ≠ "" ∧
    List.Chain' (· < ·) ((jobWrites env input opts).map Event.progressOf) := by
  obtain ⟨a, ha, htr⟩ := background_shape_ok env input opts h haud
  have hw : jobWrites env input opts
      = [Event.updateStatus 1 10, Event.updateStatus 2 25, Event.updateStatus 2 50,
         Event.updateStatus 2 65, Event.completed] := by
    rw [jobWrites, htr]
    rcases env with ⟨cr, tr, lv, co, rd, ae, ra, ie, ro⟩
    cases ae <;> cases ie <;> cases ro <;> simp [Event.isJobWrite]
  refine ⟨hw, ?_, ?_, ?_⟩
  · rw [applyEvents, htr]
    rcases env with ⟨cr, tr, lv, co, rd, ae, ra, ie, ro⟩
    cases ae <;> cases ie <;> cases ro <;>
      simp [applyEvent, initialJob]
  · intro hcon
    have h2 := congrArg String.data hcon
    simp at h2
  · rw [hw]
    norm_num [Event.progressOf, List.chain'_cons]

end VideoCaption

namespace VideoCaption

theorem applyEvents_append (jobId : String) (j : JobRecord) (l1 l2 : List Event) :
    applyEvents jobId j (l1 ++ l2) = applyEvents jobId (applyEvents jobId j l1) l2 := by
  simp [applyEvents, List.foldl_append]

theorem applyEvents_take_ne_three (jobId : String) :
    ∀ (evs : List Event) (j : JobRecord), j.statusId ≠ 3 →
      (∀ s p, Event.updateStatus s p ∈ evs → s ≠ 3) →
      Event.completed ∉ evs →
      ∀ k, (applyEvents jobId j (evs.take k)).statusId ≠ 3 := by
  intro evs
  induction evs with
  | nil =>
      intro j hj _ _ k
      simpa [applyEvents] using hj
  | cons e t ih =>
      intro j hj hs hc k
      cases k with
      | zero => simpa [applyEvents] using hj
      | succ k2 =>
          rw [List.take_succ_cons]
          rw [show applyEvents jobId j (e :: List.take k2 t)
                = applyEvents jobId (applyEvent jobId j e) (List.take k2 t) from rfl]
          refine ih _ ?_ (fun s p hm => hs s p (List.mem_cons_of_mem _ hm))
            (fun hm => hc (List.mem_cons_of_mem _ hm)) k2
          cases e with
          | updateStatus s p =>
              have := hs s p (List.mem_cons_self _ _)
              simpa [applyEvent]
          | completed => exact absurd (List.mem_cons_self _ _) hc
          | failed m => simp [applyEvent]
          | removeFile p2 => simpa [applyEvent] using hj

theorem applyEvents_updates_only (jobId : String) :
    ∀ (evs : List Event) (j : JobRecord),
      (∀ e ∈ evs, ∃ s p, e = Event.updateStatus s p) →
      (applyEvents jobId j evs).downloadUrl = j.downloadUrl ∧
      (applyEvents jobId j evs).failedMessage = j.failedMessage ∧
      (applyEvents jobId j evs).completedAtSet = j.completedAtSet := by
  intro evs
  induction evs with
  | nil => intro j _; exact ⟨rfl, rfl, rfl⟩
  | cons e t ih =>
      intro j hall
      obtain ⟨s, p, rfl⟩ := hall e (List.mem_cons_self _ _)
      have h2 := ih (applyEvent jobId j (Event.updateStatus s p))
        (fun e2 hm => hall e2 (List.mem_cons_of_mem _ hm))
      simpa [applyEvents, applyEvent] using h2

/-- C4: when some stage fails, no checkpoint after the failing stage is
written: the job-record writes are a prefix of the success checkpoints
followed directly by the failure write; the job ends with status `Failed`,
progress 0 and a non-empty message, the input file is removed (when it
exists and its removal succeeds, as in the scenario the claim describes),
and no replayed prefix of the trace ever shows status `Completed`. -/
theorem claim_C4_failure_shortcircuit (env : Env) (input : String)
    (opts : SubtitleOptions) (jobId : String) (h : stagesAllOk env opts = false)
    (hie : env.inputExistsAtCleanup = true) (hro : env.removeInputOk = true) :
    ∃ msg, msg ≠ "" ∧
      (∃ k, jobWrites env input opts
        = [Event.updateStatus 1 10, Event.updateStatus 2 25, Event.updateStatus 2 50,
           Event.updateStatus 2 65].take k ++ [Event.failed msg]) ∧
      Event.completed ∉ (backgroundVideoProcessing env input opts).1 ∧
      (∀ k, (applyEvents jobId initialJob
        ((backgroundVideoProcessing env input opts).1.take k)).statusId ≠ 3) ∧
      applyEvents jobId initialJob (backgroundVideoProcessing env input opts).1
        = { statusId := 4, progress := 0, downloadUrl := ""
            failedMessage := msg, completedAtSet := false } ∧
      Event.removeFile input ∈ (backgroundVideoProcessing env input opts).1 := by
  obtain ⟨e, he⟩ := gen_error_of_not_ok env input opts h
  obtain ⟨k, hk⟩ := gen_trace_on_error env input opts e he
  have htr := background_shape_error env input opts e he
  rw [hk, hie, hro] at htr
  simp only [and_self, if_true] at htr
  have hsub : ∀ ev ∈ ([Event.updateStatus 2 25, Event.updateStatus 2 50,
      Event.updateStatus 2 65].take k), ∃ s p, ev = Event.updateStatus s p ∧ s ≠ 3 := by
    intro ev hm
    have hm2 := List.take_subset _ _ hm
    simp at hm2
    rcases hm2 with h1 | h1 | h1 <;> rw [h1] <;> exact ⟨2, _, rfl, by decide⟩
  have hnc : Event.completed ∉ (backgroundVideoProcessing env input opts).1 := by
    rw [htr]
    intro hm
    rcases List.mem_append.mp hm with hm1 | hm1
    · rcases List.mem_append.mp hm1 with hm2 | hm2
      · rcases List.mem_append.mp hm2 with hm3 | hm3
        · simp at hm3
        · have h4 := List.take_subset _ _ hm3
          simp at h4
      · simp at hm2
    · simp at hm1
  refine ⟨"Error: " ++ e, error_msg_ne_empty e, ⟨k + 1, ?_⟩, hnc, ?_, ?_, ?_⟩
  · rw [jobWrites, htr]
    rw [List.take_succ_cons]
    simp only [List.filter_append, List.filter_cons, List.filter_nil]
    have hfil : ([Event.updateStatus 2 25, Event.updateStatus 2 50,
        Event.updateStatus 2 65].take k).filter Event.isJobWrite
        = [Event.updateStatus 2 25, Event.updateStatus 2 50,
           Event.updateStatus 2 65].take k := by
      refine List.filter_eq_self.mpr ?_
      intro ev hm
      obtain ⟨s, p, rfl, _⟩ := hsub ev hm
      rfl
    rw [hfil]
    simp [Event.isJobWrite]
  · intro k2
    rw [htr]
    refine applyEvents_take_ne_three jobId _ initialJob (by decide) ?_ ?_ k2
    · intro s p hm
      rcases List.mem_append.mp hm with hm1 | hm1
      · rcases List.mem_append.mp hm1 with hm2 | hm2
        · rcases List.mem_append.mp hm2 with hm3 | hm3
          · simp at hm3
            omega
          · obtain ⟨s2, p2, he2, hs2⟩ := hsub _ hm3
            injection he2 with hss hpp
            subst hss
            exact hs2
        · simp at hm2
      · simp at hm1
    · rw [htr] at hnc
      exact hnc
  · have hassoc : (backgroundVideoProcessing env input opts).1
        = ([Event.updateStatus 1 10] ++ [Event.updateStatus 2 25,
            Event.updateStatus 2 50, Event.updateStatus 2 65].take k)
          ++ ([Event.failed ("Error: " ++ e)] ++ [Event.removeFile input]) := by
      rw [htr]
      simp [List.append_assoc]
    rw [hassoc, applyEvents_append]
    have hside : ∀ ev ∈ ([Event.updateStatus 1 10] ++ [Event.updateStatus 2 25,
        Event.updateStatus 2 50, Event.updateStatus 2 65].take k),
        ∃ s p, ev = Event.updateStatus s p := by
      intro ev hm
      rcases List.mem_append.mp hm with hm1 | hm1
      · simp at hm1
        exact ⟨1, 10, hm1⟩
      · obtain ⟨s, p, he2, _⟩ := hsub ev hm1
        exact ⟨s, p, he2⟩
    obtain ⟨hdl, hfm, hca⟩ := applyEvents_updates_only jobId
      ([Event.updateStatus 1 10] ++ [Event.updateStatus 2 25, Event.updateStatus 2 50,
        Event.updateStatus 2 65].take k) initialJob hside
    have hdl2 : (applyEvents jobId initialJob ([Event.updateStatus 1 10]
        ++ [Event.updateStatus 2 25, Event.updateStatus 2 50,
            Event.updateStatus 2 65].take k)).downloadUrl = "" := by
      rw [hdl]
      rfl
    have hca2 : (applyEvents jobId initialJob ([Event.updateStatus 1 10]
        ++ [Event.updateStatus 2 25, Event.updateStatus 2 50,
            Event.updateStatus 2 65].take k)).completedAtSet = false := by
      rw [hca]
      rfl
    simp only [applyEvents, List.foldl_append, List.foldl_cons, List.foldl_nil,
      applyEvent] at hdl2 hca2
    simp [applyEvents, applyEvent, hdl2, hca2]
  · rw [htr]
    simp

end VideoCaption

namespace VideoCaption

theorem gen_no_failed (env : Env) (input : String) (opts : SubtitleOptions) :
    ∀ m, Event.failed m ∉ (generateSubtitles env input opts).1 := by
  intro m hm
  rcases env with ⟨cr, tr, lv, co, rd, ae, ra, ie, ro⟩
  cases cr with
  | none => simp [generateSubtitles] at hm
  | some a =>
      cases tr with
      | error e => simp [generateSubtitles] at hm
      | ok ws =>
          cases lv with
          | error e => simp [generateSubtitles] at hm
          | ok u =>
              cases hP : (Position.fromId opts.position_id).bind fun _ => co with
              | error e => simp [generateSubtitles, hP] at hm
              | ok u2 =>
                  cases rd with
                  | error e => simp [generateSubtitles, hP] at hm
                  | ok u3 =>
                      cases ae with
                      | false => simp [generateSubtitles, hP] at hm
                      | true => cases ra <;> simp [generateSubtitles, hP] at hm

theorem background_trace (env : Env) (input : String) (opts : SubtitleOptions) :
    (backgroundVideoProcessing env input opts).1
      = (match processVideoWithSubtitles env input opts with
         | (evs, .ok success) =>
             if success then
               [Event.updateStatus 1 10] ++ evs ++ [Event.completed]
             else
               [Event.updateStatus 1 10] ++ evs
                 ++ [Event.failed "Error: Unable to process video"]
         | (evs, .error e) =>
             [Event.updateStatus 1 10] ++ evs ++ [Event.failed ("Error: " ++ e)])
        ++ (if env.inputExistsAtCleanup ∧ env.removeInputOk
            then [Event.removeFile input] else []) := by
  rcases env with ⟨cr, tr, lv, co, rd, ae, ra, ie, ro⟩
  cases ie <;> cases ro <;> simp [backgroundVideoProcessing]

/-- C9: whenever `process_video_with_subtitles` returns normally it returns
`True`, so the `else` branch of `background_video_processing` that would
record "Error: Unable to process video" is unreachable: every failure
message actually recorded comes from the exception handler and is
`"Error: " ++ str(e)` for the exception `e` the pipeline raised. -/
theorem claim_C9_success_always_true :
    (∀ (env : Env) (input : String) (opts : SubtitleOptions) (r : Bool),
      (processVideoWithSubtitles env input opts).2 = .ok r → r = true) ∧
    (∀ (env : Env) (input : String) (opts : SubtitleOptions) (msg : String),
      Event.failed msg ∈ (backgroundVideoProcessing env input opts).1 →
      ∃ e, (generateSubtitles env input opts).2 = .error e ∧
        msg = "Error: " ++ e) := by
  constructor
  · intro env input opts r hr
    rcases hg : generateSubtitles env input opts with ⟨evs, res⟩
    rw [processVideoWithSubtitles, hg] at hr
    cases res with
    | ok u => simpa [Except.map] using hr.symm
    | error e => simp [Except.map] at hr
  · intro env input opts msg hm
    rcases hg : generateSubtitles env input opts with ⟨evs, res⟩
    have hnf : ∀ m, Event.failed m ∉ evs := by
      intro m hmem
      exact gen_no_failed env input opts m (by rw [hg]; exact hmem)
    rw [background_trace, processVideoWithSubtitles, hg] at hm
    cases res with
    | ok u =>
        exfalso
        simp only [Except.map] at hm
        rcases List.mem_append.mp hm with hm1 | hm1
        · rcases List.mem_append.mp hm1 with hm2 | hm2
          · rcases List.mem_append.mp hm2 with hm3 | hm3
            · simp at hm3
            · exact hnf msg hm3
          · simp at hm2
        · by_cases hcl : env.inputExistsAtCleanup ∧ env.removeInputOk <;>
            simp [hcl] at hm1
    | error e =>
        refine ⟨e, rfl, ?_⟩
        simp only [Except.map] at hm
        rcases List.mem_append.mp hm with hm1 | hm1
        · rcases List.mem_append.mp hm1 with hm2 | hm2
          · rcases List.mem_append.mp hm2 with hm3 | hm3
            · simp at hm3
            · exact absurd hm3 (hnf msg)
          · simpa using hm2
        · exfalso
          by_cases hcl : env.inputExistsAtCleanup ∧ env.removeInputOk <;>
            simp [hcl] at hm1

end VideoCaption

namespace VideoCaption

/-- C7 (amended): the extracted audio file is removed only on the success
path — `generate_subtitles` deletes it after rendering, but has no
`try`/`finally`, so when any stage raises the audio file is left behind. -/
theorem claim_C7_amended_audio_cleanup (env : Env) (input : String)
    (opts : SubtitleOptions) :
    ((generateSubtitles env input opts).2 = Except.ok () → env.audioExists = true →
      ∃ a, env.convertResult = some a ∧
        Event.removeFile a ∈ (generateSubtitles env input opts).1) ∧
    (∀ e, (generateSubtitles env input opts).2 = Except.error e →
      ∀ p, Event.removeFile p ∉ (generateSubtitles env input opts).1) := by
  constructor
  · intro hok hae
    rcases env with ⟨cr, tr, lv, co, rd, ae, ra, ie, ro⟩
    subst hae
    cases cr with
    | none => simp [generateSubtitles] at hok
    | some a =>
        refine ⟨a, rfl, ?_⟩
        cases tr with
        | error e => simp [generateSubtitles] at hok
        | ok ws =>
            cases lv with
            | error e => simp [generateSubtitles] at hok
            | ok u =>
                cases hP : (Position.fromId opts.position_id).bind fun _ => co with
                | error e => simp [generateSubtitles, hP] at hok
                | ok u2 =>
                    cases rd with
                    | error e => simp [generateSubtitles, hP] at hok
                    | ok u3 =>
                        cases ra with
                        | error e => simp [generateSubtitles, hP] at hok
                        | ok u4 => simp [generateSubtitles, hP]
  · intro e he p hm
    obtain ⟨k, hk⟩ := gen_trace_on_error env input opts e he
    rw [hk] at hm
    have h2 := List.take_subset _ _ hm
    simp at h2

theorem applyEvents_filter (jobId : String) :
    ∀ (evs : List Event) (j : JobRecord),
      applyEvents jobId j (evs.filter Event.isJobWrite) = applyEvents jobId j evs := by
  intro evs
  induction evs with
  | nil => intro j; rfl
  | cons e t ih =>
      intro j
      cases e <;>
        simp [List.filter_cons, Event.isJobWrite, applyEvents, List.foldl_cons,
          applyEvent] <;>
        exact (by simpa [applyEvents] using ih _)

theorem jobWrites_ignores_removeOk (env : Env) (input : String)
    (opts : SubtitleOptions) (b : Bool) :
    jobWrites { env with removeInputOk := b } input opts
      = jobWrites env input opts := by
  rcases env with ⟨cr, tr, lv, co, rd, ae, ra, ie, ro⟩
  rw [jobWrites, jobWrites, background_trace, background_trace]
  have hpv : processVideoWithSubtitles ⟨cr, tr, lv, co, rd, ae, ra, ie, b⟩ input opts
      = processVideoWithSubtitles ⟨cr, tr, lv, co, rd, ae, ra, ie, ro⟩ input opts := rfl
  rw [hpv]
  simp only [List.filter_append]
  congr 1
  cases ie <;> cases b <;> cases ro <;> simp [Event.isJobWrite]

theorem positionFromId_invalid (pid : Int) (h1 : pid ≠ 1) (h2 : pid ≠ 2)
    (h3 : pid ≠ 3) :
    Position.fromId pid = .error (toString pid ++ " is not a valid Position") := by
  unfold Position.fromId
  split <;> simp_all

end VideoCaption

namespace VideoCaption

/-- C8 (amended): `cleanup_temp_files` swallows every deletion failure and
never raises; and the input-file deletion at the end of
`background_video_processing` never changes the job's recorded writes or
replayed record, whether or not it succeeds (its failure does, however,
escape that routine — see the counterexample). -/
theorem claim_C8_amended_cleanup_swallowed :
    (∀ files : List TempFile, ∃ evs, cleanupTempFiles files = Except.ok evs) ∧
    (∀ (env : Env) (input : String) (opts : SubtitleOptions) (b : Bool),
      jobWrites { env with removeInputOk := b } input opts
        = jobWrites env input opts) ∧
    (∀ (env : Env) (input : String) (opts : SubtitleOptions) (b : Bool)
       (jobId : String),
      applyEvents jobId initialJob
        (backgroundVideoProcessing { env with removeInputOk := b } input opts).1
      = applyEvents jobId initialJob
          (backgroundVideoProcessing env input opts).1) := by
  refine ⟨?_, fun env input opts b => jobWrites_ignores_removeOk env input opts b, ?_⟩
  · intro files
    induction files with
    | nil => exact ⟨[], rfl⟩
    | cons f t ih =>
        obtain ⟨evs, hevs⟩ := ih
        by_cases hf : f.isFile
        · by_cases hr : f.removeOk
          · exact ⟨Event.removeFile f.path :: evs,
              by simp [cleanupTempFiles, osRemove, hf, hr, hevs, Except.map]⟩
          · exact ⟨evs, by simp [cleanupTempFiles, osRemove, hf, hr, hevs]⟩
        · exact ⟨evs, by simp [cleanupTempFiles, hf, hevs]⟩
  · intro env input opts b jobId
    calc applyEvents jobId initialJob
          (backgroundVideoProcessing { env with removeInputOk := b } input opts).1
        = applyEvents jobId initialJob
            (jobWrites { env with removeInputOk := b } input opts) :=
          (applyEvents_filter jobId _ _).symm
      _ = applyEvents jobId initialJob (jobWrites env input opts) := by
          rw [jobWrites_ignores_removeOk]
      _ = applyEvents jobId initialJob
            (backgroundVideoProcessing env input opts).1 :=
          applyEvents_filter jobId _ _

/-- C10: an out-of-range `position_id` is not rejected at job creation
(`create_job` never inspects the subtitle options), `Position(pid)`
substitutes no default but raises `ValueError(f"{pid} is not a valid
Position")`, and the pipeline runs through all checkpoints before the
caption-building stage raises, marking the job `Failed` with exactly that
message. -/
theorem claim_C10_invalid_position (pid : Int) (h1 : pid ≠ 1) (h2 : pid ≠ 2)
    (h3 : pid ≠ 3) (env : Env) (input filename jobId : String)
    (opts : SubtitleOptions) (hpid : opts.position_id = pid)
    (hc : env.convertResult.isSome = true)
    (ht : isOkB (exceptToUnit env.transcribe) = true)
    (hl : isOkB env.loadVideo = true)
    (hr : isOkB env.render = true)
    (hie : env.inputExistsAtCleanup = true) (hro : env.removeInputOk = true) :
    (create_job filename jobId opts).isSome = true ∧
    (∀ o o', create_job filename jobId o = create_job filename jobId o') ∧
    (∀ p, Position.fromId pid ≠ .ok p) ∧
    jobWrites env input opts
      = [Event.updateStatus 1 10, Event.updateStatus 2 25, Event.updateStatus 2 50,
         Event.updateStatus 2 65,
         Event.failed ("Error: " ++ (toString pid ++ " is not a valid Position"))] ∧
    (applyEvents jobId initialJob
      (backgroundVideoProcessing env input opts).1).statusId = 4 := by
  have hfrom := positionFromId_invalid pid h1 h2 h3
  refine ⟨rfl, fun o o' => rfl, ?_, ?_, ?_⟩
  · intro p hcontra
    rw [hfrom] at hcontra
    exact Except.noConfusion hcontra
  all_goals {
    rcases env with ⟨cr, tr, lv, co, rd, ae, ra, ie, ro⟩
    have hie2 : ie = true := hie
    have hro2 : ro = true := hro
    subst hie2
    subst hro2
    have hc2 : cr.isSome = true := hc
    have ht2 : isOkB (exceptToUnit tr) = true := ht
    have hl2 : isOkB lv = true := hl
    have hr2 : isOkB rd = true := hr
    cases cr with
    | none => simp at hc2
    | some a =>
    cases tr with
    | error e => simp [isOkB, exceptToUnit] at ht2
    | ok ws =>
    cases lv with
    | error e => simp [isOkB] at hl2
    | ok u =>
    cases rd with
    | error e => simp [isOkB] at hr2
    | ok u3 =>
    have hbind : ((Position.fromId opts.position_id).bind fun _ => co)
        = Except.error (toString pid ++ " is not a valid Position") := by
      rw [hpid, hfrom]
      rfl
    have he : (generateSubtitles
        ⟨some a, Except.ok ws, Except.ok u, co, Except.ok u3, ae, ra, true, true⟩
        input opts).2 = Except.error (toString pid ++ " is not a valid Position") := by
      simp [generateSubtitles, hbind]
    have htr := background_shape_error _ input opts _ he
    have hk : (generateSubtitles
        ⟨some a, Except.ok ws, Except.ok u, co, Except.ok u3, ae, ra, true, true⟩
        input opts).1
        = [Event.updateStatus 2 25, Event.updateStatus 2 50,
           Event.updateStatus 2 65] := by
      simp [generateSubtitles, hbind]
    rw [hk] at htr
    simp only [and_self, if_true] at htr
    first
      | (rw [jobWrites, htr]
         simp [Event.isJobWrite])
      | (rw [htr]
         simp [applyEvents, applyEvent])
  }

end VideoCaption

namespace VideoCaption

/-- C3 counterexample: a run in which every stage succeeds but the
`os.remove(audio_filename)` at the end of `generate_subtitles` raises.
The exception escapes into the handler of `background_video_processing`,
so the job record receives the failure write instead of the terminal
completion write: the sequence claimed for every all-stages-successful
run does not hold on the source. -/
theorem claim_C3_counterexample :
    stagesAllOk
      { convertResult := some "audio.mp3", transcribe := Except.ok []
        loadVideo := Except.ok (), captionOk := Except.ok ()
        render := Except.ok (), audioExists := true
        removeAudio := Except.error "PermissionError"
        inputExistsAtCleanup := true, removeInputOk := true }
      { position_id := 1, max_chars := 30, max_duration := mkRat 25 10
        max_gap := mkRat 15 10 } = true ∧
    jobWrites
      { convertResult := some "audio.mp3", transcribe := Except.ok []
        loadVideo := Except.ok (), captionOk := Except.ok ()
        render := Except.ok (), audioExists := true
        removeAudio := Except.error "PermissionError"
        inputExistsAtCleanup := true, removeInputOk := true }
      "in.mp4"
      { position_id := 1, max_chars := 30, max_duration := mkRat 25 10
        max_gap := mkRat 15 10 }
      = [Event.updateStatus 1 10, Event.updateStatus 2 25, Event.updateStatus 2 50,
         Event.updateStatus 2 65, Event.failed "Error: PermissionError"] ∧
    Event.completed ∉
      (backgroundVideoProcessing
        { convertResult := some "audio.mp3", transcribe := Except.ok []
          loadVideo := Except.ok (), captionOk := Except.ok ()
          render := Except.ok (), audioExists := true
          removeAudio := Except.error "PermissionError"
          inputExistsAtCleanup := true, removeInputOk := true }
        "in.mp4"
        { position_id := 1, max_chars := 30, max_duration := mkRat 25 10
          max_gap := mkRat 15 10 }).1 ∧
    (applyEvents "job1" initialJob
      (backgroundVideoProcessing
        { convertResult := some "audio.mp3", transcribe := Except.ok []
          loadVideo := Except.ok (), captionOk := Except.ok ()
          render := Except.ok (), audioExists := true
          removeAudio := Except.error "PermissionError"
          inputExistsAtCleanup := true, removeInputOk := true }
        "in.mp4"
        { position_id := 1, max_chars := 30, max_duration := mkRat 25 10
          max_gap := mkRat 15 10 }).1).statusId = 4 := by
  decide

theorem claim_C3_witness :
    (stagesAllOk
      { convertResult := some "audio.mp3", transcribe := Except.ok []
        loadVideo := Except.ok (), captionOk := Except.ok ()
        render := Except.ok (), audioExists := true, removeAudio := Except.ok ()
        inputExistsAtCleanup := true, removeInputOk := true }
      { position_id := 1, max_chars := 30, max_duration := mkRat 25 10
        max_gap := mkRat 15 10 } = true ∧
     (({ convertResult := some "audio.mp3", transcribe := Except.ok []
         loadVideo := Except.ok (), captionOk := Except.ok ()
         render := Except.ok (), audioExists := true, removeAudio := Except.ok ()
         inputExistsAtCleanup := true, removeInputOk := true } : Env).audioExists = true →
       ({ convertResult := some "audio.mp3", transcribe := Except.ok []
          loadVideo := Except.ok (), captionOk := Except.ok ()
          render := Except.ok (), audioExists := true, removeAudio := Except.ok ()
          inputExistsAtCleanup := true, removeInputOk := true } : Env).removeAudio
         = Except.ok ())) ∧
    jobWrites
      { convertResult := some "audio.mp3", transcribe := Except.ok []
        loadVideo := Except.ok (), captionOk := Except.ok ()
        render := Except.ok (), audioExists := true, removeAudio := Except.ok ()
        inputExistsAtCleanup := true, removeInputOk := true }
      "in.mp4"
      { position_id := 1, max_chars := 30, max_duration := mkRat 25 10
        max_gap := mkRat 15 10 }
      = [Event.updateStatus 1 10, Event.updateStatus 2 25, Event.updateStatus 2 50,
         Event.updateStatus 2 65, Event.completed] :=
  ⟨⟨by decide, fun _ => rfl⟩,
   (claim_C3_success_checkpoints
     { convertResult := some "audio.mp3", transcribe := Except.ok []
       loadVideo := Except.ok (), captionOk := Except.ok ()
       render := Except.ok (), audioExists := true, removeAudio := Except.ok ()
       inputExistsAtCleanup := true, removeInputOk := true }
     "in.mp4"
     { position_id := 1, max_chars := 30, max_duration := mkRat 25 10
       max_gap := mkRat 15 10 }
     "job1" (by decide) (fun _ => rfl)).1⟩

theorem claim_C4_witness :
    (stagesAllOk
      { convertResult := some "audio.mp3", transcribe := Except.error "boom"
        loadVideo := Except.ok (), captionOk := Except.ok ()
        render := Except.ok (), audioExists := true, removeAudio := Except.ok ()
        inputExistsAtCleanup := true, removeInputOk := true }
      { position_id := 1, max_chars := 30, max_duration := mkRat 25 10
        max_gap := mkRat 15 10 } = false) ∧
    Event.removeFile "in.mp4" ∈
      (backgroundVideoProcessing
        { convertResult := some "audio.mp3", transcribe := Except.error "boom"
          loadVideo := Except.ok (), captionOk := Except.ok ()
          render := Except.ok (), audioExists := true, removeAudio := Except.ok ()
          inputExistsAtCleanup := true, removeInputOk := true }
        "in.mp4"
        { position_id := 1, max_chars := 30, max_duration := mkRat 25 10
          max_gap := mkRat 15 10 }).1 :=
  ⟨by decide, by
    obtain ⟨msg, h1, h2, h3, h4, h5, h6⟩ :=
      claim_C4_failure_shortcircuit
        { convertResult := some "audio.mp3", transcribe := Except.error "boom"
          loadVideo := Except.ok (), captionOk := Except.ok ()
          render := Except.ok (), audioExists := true, removeAudio := Except.ok ()
          inputExistsAtCleanup := true, removeInputOk := true }
        "in.mp4"
        { position_id := 1, max_chars := 30, max_duration := mkRat 25 10
          max_gap := mkRat 15 10 }
        "job1" (by decide) rfl rfl
    exact h6⟩

/-- C7 counterexample: a run in which transcription raises reaches the
terminal `Failed` state with the extracted audio file
(`audio.mp3`, produced by the successful extraction stage) never removed:
`generate_subtitles` has no `try`/`finally` around its stages, so cleanup
of the intermediate artifact is not guaranteed. -/
theorem claim_C7_counterexample :
    (applyEvents "job1" initialJob
      (backgroundVideoProcessing
        { convertResult := some "audio.mp3"
          transcribe := Except.error "transcriber error"
          loadVideo := Except.ok (), captionOk := Except.ok ()
          render := Except.ok (), audioExists := true, removeAudio := Except.ok ()
          inputExistsAtCleanup := true, removeInputOk := true }
        "in.mp4"
        { position_id := 1, max_chars := 30, max_duration := mkRat 25 10
          max_gap := mkRat 15 10 }).1).statusId = 4 ∧
    Event.removeFile "audio.mp3" ∉
      (backgroundVideoProcessing
        { convertResult := some "audio.mp3"
          transcribe := Except.error "transcriber error"
          loadVideo := Except.ok (), captionOk := Except.ok ()
          render := Except.ok (), audioExists := true, removeAudio := Except.ok ()
          inputExistsAtCleanup := true, removeInputOk := true }
        "in.mp4"
        { position_id := 1, max_chars := 30, max_duration := mkRat 25 10
          max_gap := mkRat 15 10 }).1 := by
  decide

theorem claim_C7_amended_witness :
    ((generateSubtitles
        { convertResult := some "audio.mp3", transcribe := Except.ok []
          loadVideo := Except.ok (), captionOk := Except.ok ()
          render := Except.ok (), audioExists := true, removeAudio := Except.ok ()
          inputExistsAtCleanup := true, removeInputOk := true }
        "in.mp4"
        { position_id := 1, max_chars := 30, max_duration := mkRat 25 10
          max_gap := mkRat 15 10 }).2 = Except.ok ()) ∧
    (∃ a, ({ convertResult := some "audio.mp3", transcribe := Except.ok []
             loadVideo := Except.ok (), captionOk := Except.ok ()
             render := Except.ok (), audioExists := true, removeAudio := Except.ok ()
             inputExistsAtCleanup := true, removeInputOk := true } : Env).convertResult
          = some a ∧
      Event.removeFile a ∈
        (generateSubtitles
          { convertResult := some "audio.mp3", transcribe := Except.ok []
            loadVideo := Except.ok (), captionOk := Except.ok ()
            render := Except.ok (), audioExists := true, removeAudio := Except.ok ()
            inputExistsAtCleanup := true, removeInputOk := true }
          "in.mp4"
          { position_id := 1, max_chars := 30, max_duration := mkRat 25 10
            max_gap := mkRat 15 10 }).1) ∧
    ((generateSubtitles
        { convertResult := some "audio.mp3"
          transcribe := Except.error "transcriber error"
          loadVideo := Except.ok (), captionOk := Except.ok ()
          render := Except.ok (), audioExists := true, removeAudio := Except.ok ()
          inputExistsAtCleanup := true, removeInputOk := true }
        "in.mp4"
        { position_id := 1, max_chars := 30, max_duration := mkRat 25 10
          max_gap := mkRat 15 10 }).2 = Except.error "transcriber error") ∧
    Event.removeFile "audio.mp3" ∉
      (generateSubtitles
        { convertResult := some "audio.mp3"
          transcribe := Except.error "transcriber error"
          loadVideo := Except.ok (), captionOk := Except.ok ()
          render := Except.ok (), audioExists := true, removeAudio := Except.ok ()
          inputExistsAtCleanup := true, removeInputOk := true }
        "in.mp4"
        { position_id := 1, max_chars := 30, max_duration := mkRat 25 10
          max_gap := mkRat 15 10 }).1 :=
  ⟨rfl,
   (claim_C7_amended_audio_cleanup
      { convertResult := some "audio.mp3", transcribe := Except.ok []
        loadVideo := Except.ok (), captionOk := Except.ok ()
        render := Except.ok (), audioExists := true, removeAudio := Except.ok ()
        inputExistsAtCleanup := true, removeInputOk := true }
      "in.mp4"
      { position_id := 1, max_chars := 30, max_duration := mkRat 25 10
        max_gap := mkRat 15 10 }).1 rfl rfl,
   rfl,
   (claim_C7_amended_audio_cleanup
      { convertResult := some "audio.mp3"
        transcribe := Except.error "transcriber error"
        loadVideo := Except.ok (), captionOk := Except.ok ()
        render := Except.ok (), audioExists := true, removeAudio := Except.ok ()
        inputExistsAtCleanup := true, removeInputOk := true }
      "in.mp4"
      { position_id := 1, max_chars := 30, max_duration := mkRat 25 10
        max_gap := mkRat 15 10 }).2 "transcriber error" rfl "audio.mp3"⟩

/-- C8 counterexample: when deleting the job's input file at the end of
`background_video_processing` fails, the `OSError` escapes the routine —
the `os.remove` in its `finally` block is not wrapped in `try`/`except` —
refuting the claim that every cleanup failure is swallowed silently. -/
theorem claim_C8_counterexample :
    (backgroundVideoProcessing
      { convertResult := some "audio.mp3", transcribe := Except.ok []
        loadVideo := Except.ok (), captionOk := Except.ok ()
        render := Except.ok (), audioExists := true, removeAudio := Except.ok ()
        inputExistsAtCleanup := true, removeInputOk := false }
      "in.mp4"
      { position_id := 1, max_chars := 30, max_duration := mkRat 25 10
        max_gap := mkRat 15 10 }).2 = Except.error "OSError" := rfl

theorem claim_C9_witness :
    (true = true) ∧
    (∃ e, (generateSubtitles
        { convertResult := some "audio.mp3", transcribe := Except.error "boom"
          loadVideo := Except.ok (), captionOk := Except.ok ()
          render := Except.ok (), audioExists := true, removeAudio := Except.ok ()
          inputExistsAtCleanup := true, removeInputOk := true }
        "in.mp4"
        { position_id := 1, max_chars := 30, max_duration := mkRat 25 10
          max_gap := mkRat 15 10 }).2 = Except.error e ∧
      "Error: boom" = "Error: " ++ e) :=
  ⟨claim_C9_success_always_true.1
      { convertResult := some "audio.mp3", transcribe := Except.ok []
        loadVideo := Except.ok (), captionOk := Except.ok ()
        render := Except.ok (), audioExists := true, removeAudio := Except.ok ()
        inputExistsAtCleanup := true, removeInputOk := true }
      "in.mp4"
      { position_id := 1, max_chars := 30, max_duration := mkRat 25 10
        max_gap := mkRat 15 10 } true rfl,
   claim_C9_success_always_true.2
      { convertResult := some "audio.mp3", transcribe := Except.error "boom"
        loadVideo := Except.ok (), captionOk := Except.ok ()
        render := Except.ok (), audioExists := true, removeAudio := Except.ok ()
        inputExistsAtCleanup := true, removeInputOk := true }
      "in.mp4"
      { position_id := 1, max_chars := 30, max_duration := mkRat 25 10
        max_gap := mkRat 15 10 } "Error: boom" (by decide)⟩

theorem claim_C10_witness :
    ((7 : Int) ≠ 1 ∧ (7 : Int) ≠ 2 ∧ (7 : Int) ≠ 3 ∧
      ({ position_id := 7, max_chars := 30, max_duration := mkRat 25 10
         max_gap := mkRat 15 10 } : SubtitleOptions).position_id = 7) ∧
    jobWrites
      { convertResult := some "audio.mp3", transcribe := Except.ok []
        loadVideo := Except.ok (), captionOk := Except.ok ()
        render := Except.ok (), audioExists := true, removeAudio := Except.ok ()
        inputExistsAtCleanup := true, removeInputOk := true }
      "in.mp4"
      { position_id := 7, max_chars := 30, max_duration := mkRat 25 10
        max_gap := mkRat 15 10 }
      = [Event.updateStatus 1 10, Event.updateStatus 2 25, Event.updateStatus 2 50,
         Event.updateStatus 2 65,
         Event.failed ("Error: " ++ (toString (7 : Int) ++ " is not a valid Position"))] :=
  ⟨⟨by decide, by decide, by decide, rfl⟩,
   (claim_C10_invalid_position 7 (by decide) (by decide) (by decide)
      { convertResult := some "audio.mp3", transcribe := Except.ok []
        loadVideo := Except.ok (), captionOk := Except.ok ()
        render := Except.ok (), audioExists := true, removeAudio := Except.ok ()
        inputExistsAtCleanup := true, removeInputOk := true }
      "in.mp4" "video.mp4" "job1"
      { position_id := 7, max_chars := 30, max_duration := mkRat 25 10
        max_gap := mkRat 15 10 }
      rfl rfl rfl rfl rfl rfl rfl).2.2.2.1⟩

end VideoCaption
